import Mathlib

/-!
Verification of the certificate construction and extension-validation pipeline
of `net/cert/pki/parsed_certificate.cc` (`ParsedCertificate::Create`,
`ParsedCertificate::GetExtension`, `ParsedCertificate::CreateAndAddToVector`).

The orchestrator in the source drives a sequence of external sub-parses
(envelope, TBS, signature algorithm, name normalization, per-extension
decoders).  Those collaborators live outside the excerpt, so they are modelled
as an explicit environment (`Env`) of fallible functions; the orchestration
logic itself is translated from the source line by line.  Byte regions are
modelled as `List Nat`; the typed values produced by the external per-extension
decoders are opaque to this core and modelled as `Nat` / `List` tokens.
-/

set_option maxRecDepth 4096

/-- A byte region (`der::Input`): a list of bytes borrowed from the backing buffer. -/
abbrev Bytes := List Nat

/-- The error identifiers declared with `DEFINE_CERT_ERROR_ID` at the top of
`parsed_certificate.cc`.  `ParsedCertificate::Create` appends exactly one of
these to the error sink on each failure path. -/
inductive CertErrorId where
  | kFailedParsingCertificate
  | kFailedParsingTbsCertificate
  | kFailedParsingSignatureAlgorithm
  | kFailedReadingIssuerOrSubject
  | kFailedNormalizingSubject
  | kFailedNormalizingIssuer
  | kFailedParsingExtensions
  | kFailedParsingBasicConstraints
  | kFailedParsingKeyUsage
  | kFailedParsingEku
  | kFailedParsingSubjectAltName
  | kSubjectAltNameNotCritical
  | kFailedParsingNameConstraints
  | kFailedParsingAia
  | kFailedParsingPolicies
  | kFailedParsingPolicyConstraints
  | kFailedParsingPolicyMappings
  | kFailedParsingInhibitAnyPolicy
  | kFailedParsingAuthorityKeyIdentifier
  | kFailedParsingSubjectKeyIdentifier
  deriving DecidableEq, Repr

/-- `ParsedExtension` (from `parse_certificate.h`): identifier bytes, the
criticality flag and the raw value bytes of one extension record.  The C++
default constructor produces empty inputs and `critical = false`. -/
structure ParsedExtension where
  oid : Bytes := []
  critical : Bool := false
  value : Bytes := []
  deriving DecidableEq, Repr

/-- The fields of `ParsedTbsCertificate` that `ParsedCertificate::Create`
reads: the subject and issuer TLVs and the optional extensions TLV.  The other
TBS fields (serial number, validity, SPKI, ...) are opaque to this core and
collapsed into one token. -/
structure ParsedTbsCertificate where
  subject_tlv : Bytes
  issuer_tlv : Bytes
  extensions_tlv : Option Bytes
  otherFields : Nat := 0
  deriving DecidableEq, Repr

/-- `SignatureAlgorithm`: a typed value produced by the external
`ParseSignatureAlgorithm`; opaque to this core. -/
abbrev SignatureAlgorithm := Nat

/-- `ParsedBasicConstraints`, opaque to this core. -/
abbrev ParsedBasicConstraints := Nat

/-- `der::BitString` (the decoded key usage), opaque to this core. -/
abbrev BitString := Nat

/-- `GeneralNames` (the decoded subjectAltName), opaque to this core. -/
abbrev GeneralNames := Nat

/-- `NameConstraints`, opaque to this core. -/
abbrev NameConstraints := Nat

/-- `ParsedPolicyConstraints`, opaque to this core. -/
abbrev ParsedPolicyConstraints := Nat

/-- The decoded policy mappings, opaque to this core. -/
abbrev ParsedPolicyMappings := Nat

/-- `ParsedAuthorityKeyIdentifier`, opaque to this core. -/
abbrev ParsedAuthorityKeyIdentifier := Nat

/-- `ParseCertificateOptions` (only handed through to the external
`ParseTbsCertificate`). -/
structure ParseCertificateOptions where
  allow_invalid_serial_numbers : Bool := false
  deriving DecidableEq, Repr

/-- The assembled immutable certificate object.  Field for field the data
members of `ParsedCertificate` that the excerpt assigns; fields that the C++
default constructor leaves at their default keep that default here. -/
structure ParsedCertificate where
  cert : Bytes
  tbs_certificate_tlv : Bytes
  signature_algorithm_tlv : Bytes
  signature_value : Bytes
  tbs : ParsedTbsCertificate
  signature_algorithm : SignatureAlgorithm
  normalized_subject : Bytes
  normalized_issuer : Bytes
  extensions : List ParsedExtension
  has_basic_constraints : Bool := false
  basic_constraints : ParsedBasicConstraints := 0
  has_key_usage : Bool := false
  key_usage : BitString := 0
  has_extended_key_usage : Bool := false
  extended_key_usage : List Bytes := []
  subject_alt_names_extension : ParsedExtension := {}
  subject_alt_names : Option GeneralNames := none
  name_constraints : Option NameConstraints := none
  has_authority_info_access : Bool := false
  authority_info_access_extension : ParsedExtension := {}
  ca_issuers_uris : List Bytes := []
  ocsp_uris : List Bytes := []
  has_policy_oids : Bool := false
  policy_oids : List Bytes := []
  has_policy_constraints : Bool := false
  policy_constraints : ParsedPolicyConstraints := 0
  has_policy_mappings : Bool := false
  policy_mappings : ParsedPolicyMappings := 0
  has_inhibit_any_policy : Bool := false
  inhibit_any_policy : Nat := 0
  subject_key_identifier : Option Bytes := none
  authority_key_identifier : Option ParsedAuthorityKeyIdentifier := none
  deriving DecidableEq, Repr

/-- The external collaborators consumed by the orchestrator (spec section 6).
Each is a fallible pure function; the orchestrator only decides when to invoke
them and what to do with success or failure. -/
structure Env where
  parseCertificate : Bytes → Option (Bytes × Bytes × Bytes)
  parseTbsCertificate : Bytes → ParseCertificateOptions → Option ParsedTbsCertificate
  parseSignatureAlgorithm : Bytes → Option SignatureAlgorithm
  readSequenceTLV : Bytes → Option (Bytes × Bytes)
  normalizeName : Bytes → Option Bytes
  decodeExtensionsRegion : Bytes → Option (List ParsedExtension)
  parseBasicConstraints : Bytes → Option ParsedBasicConstraints
  parseKeyUsage : Bytes → Option BitString
  parseEKUExtension : Bytes → Option (List Bytes)
  generalNamesCreate : Bytes → Option GeneralNames
  nameConstraintsCreate : Bytes → Bool → Option NameConstraints
  parseAuthorityInfoAccessURIs : Bytes → Option (List Bytes × List Bytes)
  parseCertificatePoliciesExtensionOids : Bytes → Bool → Option (List Bytes)
  parsePolicyConstraints : Bytes → Option ParsedPolicyConstraints
  parsePolicyMappings : Bytes → Option ParsedPolicyMappings
  parseInhibitAnyPolicy : Bytes → Option Nat
  parseSubjectKeyIdentifier : Bytes → Option Bytes
  parseAuthorityKeyIdentifier : Bytes → Option ParsedAuthorityKeyIdentifier

/-- DER encoding of OID 2.5.29.19 (basic constraints). -/
def kBasicConstraintsOid : Bytes := [85, 29, 19]

/-- DER encoding of OID 2.5.29.15 (key usage). -/
def kKeyUsageOid : Bytes := [85, 29, 15]

/-- DER encoding of OID 2.5.29.37 (extended key usage). -/
def kExtKeyUsageOid : Bytes := [85, 29, 37]

/-- DER encoding of OID 2.5.29.17 (subject alternative name). -/
def kSubjectAltNameOid : Bytes := [85, 29, 17]

/-- DER encoding of OID 2.5.29.30 (name constraints). -/
def kNameConstraintsOid : Bytes := [85, 29, 30]

/-- DER encoding of OID 1.3.6.1.5.5.7.1.1 (authority information access). -/
def kAuthorityInfoAccessOid : Bytes := [43, 6, 1, 5, 5, 7, 1, 1]

/-- DER encoding of OID 2.5.29.32 (certificate policies). -/
def kCertificatePoliciesOid : Bytes := [85, 29, 32]

/-- DER encoding of OID 2.5.29.36 (policy constraints). -/
def kPolicyConstraintsOid : Bytes := [85, 29, 36]

/-- DER encoding of OID 2.5.29.33 (policy mappings). -/
def kPolicyMappingsOid : Bytes := [85, 29, 33]

/-- DER encoding of OID 2.5.29.54 (inhibit any policy). -/
def kInhibitAnyPolicyOid : Bytes := [85, 29, 54]

/-- DER encoding of OID 2.5.29.14 (subject key identifier). -/
def kSubjectKeyIdentifierOid : Bytes := [85, 29, 14]

/-- DER encoding of OID 2.5.29.35 (authority key identifier). -/
def kAuthorityKeyIdentifierOid : Bytes := [85, 29, 35]

/-- Lookup in the extension table (`extensions_.find(extension_oid)` on the
`std::map` keyed by OID): the entry whose identifier equals the given OID. -/
def lookupExt (table : List ParsedExtension) (oid : Bytes) : Option ParsedExtension :=
  table.find? (fun e => e.oid == oid)

/-- `ParsedCertificate::GetExtension`.  The C++ writes through an out
parameter and returns a bool; here the initial value of the out parameter is
taken as an argument and its final value is returned alongside the bool.
If there is no extensions TLV the function returns false without touching the
out parameter; if the OID is absent from the table the out parameter is reset
to a default-constructed `ParsedExtension`. -/
def ParsedCertificate.GetExtension (pc : ParsedCertificate) (extension_oid : Bytes)
    (parsed_extension : ParsedExtension) : Bool × ParsedExtension :=
  match pc.tbs.extensions_tlv with
  | none => (false, parsed_extension)
  | some _ =>
    match lookupExt pc.extensions extension_oid with
    | none => (false, {})
    | some e => (true, e)

/-- `GetSequenceValue` (anonymous namespace): read a single SEQUENCE tag from
the TLV and require that nothing follows it.  The generic DER read is the
external `readSequenceTLV`, returning the tag value and the unconsumed rest. -/
def GetSequenceValue (env : Env) (tlv : Bytes) : Option Bytes :=
  match env.readSequenceTLV tlv with
  | none => none
  | some (value, rest) => if rest = [] then some value else none

/-- Failure kinds of the extension-table builder (spec section 4.1): the
region can be structurally malformed, or an extension identifier can occur
twice. -/
inductive ExtensionsParseError where
  | MalformedExtensionsRegion
  | DuplicateExtension
  deriving DecidableEq, Repr

/-- Modelled from the spec: the insertion loop of `ParseExtensions`
(`net/cert/pki/parse_certificate.cc`, not included under `src/`).  Each
decoded extension record is inserted into the table keyed by its identifier;
an insertion whose identifier is already present fails the whole parse with
`DuplicateExtension` (spec section 4.1: a hard invariant, not a warning). -/
def insertExtensions (table : List ParsedExtension) :
    List ParsedExtension → Except ExtensionsParseError (List ParsedExtension)
  | [] => .ok table
  | e :: rest =>
    match lookupExt table e.oid with
    | some _ => .error .DuplicateExtension
    | none => insertExtensions (table ++ [e]) rest

/-- Modelled from the spec: the extension-table builder of spec section 4.1,
starting from an empty table. -/
def buildExtensionTable (exts : List ParsedExtension) :
    Except ExtensionsParseError (List ParsedExtension) :=
  insertExtensions [] exts

/-- Modelled from the spec: `ParseExtensions` (declared in
`parse_certificate.h`, implemented in `parse_certificate.cc`, neither of which
is included under `src/`).  The generic DER decoding of the extensions region
into a sequence of records is the external `decodeExtensionsRegion`; the
duplicate-identifier check is the table builder above. -/
def ParseExtensions (env : Env) (extensions_tlv : Bytes) :
    Except ExtensionsParseError (List ParsedExtension) :=
  match env.decodeExtensionsRegion extensions_tlv with
  | none => .error .MalformedExtensionsRegion
  | some raw => buildExtensionTable raw

/-- The basic constraints block of `Create` (source lines 148-156). -/
def basicConstraintsStep (env : Env) (result : ParsedCertificate) :
    Except CertErrorId ParsedCertificate :=
  match result.GetExtension kBasicConstraintsOid {} with
  | (false, _) => .ok result
  | (true, extension) =>
    let result := { result with has_basic_constraints := true }
    match env.parseBasicConstraints extension.value with
    | none => .error .kFailedParsingBasicConstraints
    | some bc => .ok { result with basic_constraints := bc }

/-- The key usage block of `Create` (source lines 158-165). -/
def keyUsageStep (env : Env) (result : ParsedCertificate) :
    Except CertErrorId ParsedCertificate :=
  match result.GetExtension kKeyUsageOid {} with
  | (false, _) => .ok result
  | (true, extension) =>
    let result := { result with has_key_usage := true }
    match env.parseKeyUsage extension.value with
    | none => .error .kFailedParsingKeyUsage
    | some ku => .ok { result with key_usage := ku }

/-- The extended key usage block of `Create` (source lines 167-174). -/
def extendedKeyUsageStep (env : Env) (result : ParsedCertificate) :
    Except CertErrorId ParsedCertificate :=
  match result.GetExtension kExtKeyUsageOid {} with
  | (false, _) => .ok result
  | (true, extension) =>
    let result := { result with has_extended_key_usage := true }
    match env.parseEKUExtension extension.value with
    | none => .error .kFailedParsingEku
    | some eku => .ok { result with extended_key_usage := eku }

/-- The subject alternative name block of `Create` (source lines 176-197).
The lookup writes through `result->subject_alt_names_extension_`, a field of
the object; after a successful `GeneralNames::Create` the RFC 5280 4.1.2.6
check fails with `kSubjectAltNameNotCritical` when the subject value is empty
and the extension is not critical. -/
def subjectAltNameStep (env : Env) (subject_value : Bytes) (result : ParsedCertificate) :
    Except CertErrorId ParsedCertificate :=
  match result.GetExtension kSubjectAltNameOid result.subject_alt_names_extension with
  | (false, out) => .ok { result with subject_alt_names_extension := out }
  | (true, ext) =>
    let result := { result with subject_alt_names_extension := ext }
    match env.generalNamesCreate result.subject_alt_names_extension.value with
    | none => .error .kFailedParsingSubjectAltName
    | some gn =>
      let result := { result with subject_alt_names := some gn }
      if subject_value.length = 0 ∧ result.subject_alt_names_extension.critical = false then
        .error .kSubjectAltNameNotCritical
      else
        .ok result

/-- The name constraints block of `Create` (source lines 199-207). -/
def nameConstraintsStep (env : Env) (result : ParsedCertificate) :
    Except CertErrorId ParsedCertificate :=
  match result.GetExtension kNameConstraintsOid {} with
  | (false, _) => .ok result
  | (true, extension) =>
    match env.nameConstraintsCreate extension.value extension.critical with
    | none => .error .kFailedParsingNameConstraints
    | some nc => .ok { result with name_constraints := some nc }

/-- The authority information access block of `Create` (source lines 209-219).
The lookup writes through `result->authority_info_access_extension_`. -/
def authorityInfoAccessStep (env : Env) (result : ParsedCertificate) :
    Except CertErrorId ParsedCertificate :=
  match result.GetExtension kAuthorityInfoAccessOid result.authority_info_access_extension with
  | (false, out) => .ok { result with authority_info_access_extension := out }
  | (true, ext) =>
    let result := { result with authority_info_access_extension := ext,
                                has_authority_info_access := true }
    match env.parseAuthorityInfoAccessURIs result.authority_info_access_extension.value with
    | none => .error .kFailedParsingAia
    | some uris => .ok { result with ca_issuers_uris := uris.1, ocsp_uris := uris.2 }

/-- The certificate policies block of `Create` (source lines 221-230); the
second argument of the external parser is the constant
`fail_parsing_unknown_qualifier_oids = false`. -/
def certificatePoliciesStep (env : Env) (result : ParsedCertificate) :
    Except CertErrorId ParsedCertificate :=
  match result.GetExtension kCertificatePoliciesOid {} with
  | (false, _) => .ok result
  | (true, extension) =>
    let result := { result with has_policy_oids := true }
    match env.parseCertificatePoliciesExtensionOids extension.value false with
    | none => .error .kFailedParsingPolicies
    | some oids => .ok { result with policy_oids := oids }

/-- The policy constraints block of `Create` (source lines 232-240). -/
def policyConstraintsStep (env : Env) (result : ParsedCertificate) :
    Except CertErrorId ParsedCertificate :=
  match result.GetExtension kPolicyConstraintsOid {} with
  | (false, _) => .ok result
  | (true, extension) =>
    let result := { result with has_policy_constraints := true }
    match env.parsePolicyConstraints extension.value with
    | none => .error .kFailedParsingPolicyConstraints
    | some pcs => .ok { result with policy_constraints := pcs }

/-- The policy mappings block of `Create` (source lines 242-249). -/
def policyMappingsStep (env : Env) (result : ParsedCertificate) :
    Except CertErrorId ParsedCertificate :=
  match result.GetExtension kPolicyMappingsOid {} with
  | (false, _) => .ok result
  | (true, extension) =>
    let result := { result with has_policy_mappings := true }
    match env.parsePolicyMappings extension.value with
    | none => .error .kFailedParsingPolicyMappings
    | some pm => .ok { result with policy_mappings := pm }

/-- The inhibit any policy block of `Create` (source lines 251-259). -/
def inhibitAnyPolicyStep (env : Env) (result : ParsedCertificate) :
    Except CertErrorId ParsedCertificate :=
  match result.GetExtension kInhibitAnyPolicyOid {} with
  | (false, _) => .ok result
  | (true, extension) =>
    let result := { result with has_inhibit_any_policy := true }
    match env.parseInhibitAnyPolicy extension.value with
    | none => .error .kFailedParsingInhibitAnyPolicy
    | some iap => .ok { result with inhibit_any_policy := iap }

/-- The subject key identifier block of `Create` (source lines 261-270). -/
def subjectKeyIdentifierStep (env : Env) (result : ParsedCertificate) :
    Except CertErrorId ParsedCertificate :=
  match result.GetExtension kSubjectKeyIdentifierOid {} with
  | (false, _) => .ok result
  | (true, extension) =>
    match env.parseSubjectKeyIdentifier extension.value with
    | none => .error .kFailedParsingSubjectKeyIdentifier
    | some ski => .ok { result with subject_key_identifier := some ski }

/-- The authority key identifier block of `Create` (source lines 272-282). -/
def authorityKeyIdentifierStep (env : Env) (result : ParsedCertificate) :
    Except CertErrorId ParsedCertificate :=
  match result.GetExtension kAuthorityKeyIdentifierOid {} with
  | (false, _) => .ok result
  | (true, extension) =>
    match env.parseAuthorityKeyIdentifier extension.value with
    | none => .error .kFailedParsingAuthorityKeyIdentifier
    | some aki => .ok { result with authority_key_identifier := some aki }

/-- The twelve recognized extension types, one per dispatch block of `Create`. -/
inductive ExtKind where
  | basicConstraints
  | keyUsage
  | extendedKeyUsage
  | subjectAltName
  | nameConstraints
  | authorityInfoAccess
  | certificatePolicies
  | policyConstraints
  | policyMappings
  | inhibitAnyPolicy
  | subjectKeyIdentifier
  | authorityKeyIdentifier
  deriving DecidableEq, Repr

/-- Map each dispatch block to its step translation. -/
def runStep (env : Env) (subject_value : Bytes) (k : ExtKind) (pc : ParsedCertificate) :
    Except CertErrorId ParsedCertificate :=
  match k with
  | .basicConstraints => basicConstraintsStep env pc
  | .keyUsage => keyUsageStep env pc
  | .extendedKeyUsage => extendedKeyUsageStep env pc
  | .subjectAltName => subjectAltNameStep env subject_value pc
  | .nameConstraints => nameConstraintsStep env pc
  | .authorityInfoAccess => authorityInfoAccessStep env pc
  | .certificatePolicies => certificatePoliciesStep env pc
  | .policyConstraints => policyConstraintsStep env pc
  | .policyMappings => policyMappingsStep env pc
  | .inhibitAnyPolicy => inhibitAnyPolicyStep env pc
  | .subjectKeyIdentifier => subjectKeyIdentifierStep env pc
  | .authorityKeyIdentifier => authorityKeyIdentifierStep env pc

/-- The fixed order in which `Create` dispatches the recognized extensions
(source lines 146-282). -/
def dispatchOrder : List ExtKind :=
  [.basicConstraints, .keyUsage, .extendedKeyUsage, .subjectAltName,
   .nameConstraints, .authorityInfoAccess, .certificatePolicies,
   .policyConstraints, .policyMappings, .inhibitAnyPolicy,
   .subjectKeyIdentifier, .authorityKeyIdentifier]

/-- Run a sequence of dispatch blocks in order; the first failing block aborts
the whole construction (no backtracking). -/
def runSteps (env : Env) (subject_value : Bytes) :
    List ExtKind → ParsedCertificate → Except CertErrorId ParsedCertificate
  | [], pc => .ok pc
  | k :: rest, pc =>
    match runStep env subject_value k pc with
    | .error e => .error e
    | .ok pc => runSteps env subject_value rest pc

/-- The object as assembled by the straight-line part of `Create` before the
extension dispatch: every field the source has assigned by line 146, all other
fields still default-constructed. -/
def assembledPC (cert tbs_certificate_tlv signature_algorithm_tlv signature_value : Bytes)
    (tbs : ParsedTbsCertificate) (signature_algorithm : SignatureAlgorithm)
    (normalized_subject normalized_issuer : Bytes)
    (extensions : List ParsedExtension) : ParsedCertificate :=
  { cert := cert
    tbs_certificate_tlv := tbs_certificate_tlv
    signature_algorithm_tlv := signature_algorithm_tlv
    signature_value := signature_value
    tbs := tbs
    signature_algorithm := signature_algorithm
    normalized_subject := normalized_subject
    normalized_issuer := normalized_issuer
    extensions := extensions }

/-- `ParsedCertificate::Create`, separated from the error-sink bookkeeping:
either the fully assembled object or the single error identifier that the
failing path appends.  Mirrors source lines 90-286: envelope parse, TBS parse,
signature algorithm parse, subject sequence + normalization, issuer sequence +
normalization, then (only if an extensions TLV is present) the extension table
build and the twelve dispatch blocks. -/
def createOrError (env : Env) (backing_data : Bytes) (options : ParseCertificateOptions) :
    Except CertErrorId ParsedCertificate :=
  match env.parseCertificate backing_data with
  | none => .error .kFailedParsingCertificate
  | some (tbs_certificate_tlv, signature_algorithm_tlv, signature_value) =>
    match env.parseTbsCertificate tbs_certificate_tlv options with
    | none => .error .kFailedParsingTbsCertificate
    | some tbs =>
      match env.parseSignatureAlgorithm signature_algorithm_tlv with
      | none => .error .kFailedParsingSignatureAlgorithm
      | some signature_algorithm =>
        match GetSequenceValue env tbs.subject_tlv with
        | none => .error .kFailedReadingIssuerOrSubject
        | some subject_value =>
          match env.normalizeName subject_value with
          | none => .error .kFailedNormalizingSubject
          | some normalized_subject =>
            match GetSequenceValue env tbs.issuer_tlv with
            | none => .error .kFailedReadingIssuerOrSubject
            | some issuer_value =>
              match env.normalizeName issuer_value with
              | none => .error .kFailedNormalizingIssuer
              | some normalized_issuer =>
                match tbs.extensions_tlv with
                | none =>
                  .ok (assembledPC backing_data tbs_certificate_tlv
                        signature_algorithm_tlv signature_value tbs
                        signature_algorithm normalized_subject normalized_issuer [])
                | some extensions_tlv =>
                  match ParseExtensions env extensions_tlv with
                  | .error _ => .error .kFailedParsingExtensions
                  | .ok extensions =>
                    runSteps env subject_value dispatchOrder
                      (assembledPC backing_data tbs_certificate_tlv
                        signature_algorithm_tlv signature_value tbs
                        signature_algorithm normalized_subject normalized_issuer
                        extensions)

/-- `ParsedCertificate::Create`.  The error sink is optional; when it is
omitted a throwaway sink is used (source lines 84-88).  The returned pair is
the constructed object (or none) together with the final contents of the sink
that was actually used. -/
def ParsedCertificate.Create (env : Env) (backing_data : Bytes)
    (options : ParseCertificateOptions) (errors : Option (List CertErrorId)) :
    Option ParsedCertificate × List CertErrorId :=
  let errs := errors.getD []
  match createOrError env backing_data options with
  | .ok pc => (some pc, errs)
  | .error e => (none, errs ++ [e])

/-- `ParsedCertificate::CreateAndAddToVector` (source lines 289-300): parse
and append to the caller-owned chain; on failure return false leaving the
chain untouched. -/
def ParsedCertificate.CreateAndAddToVector (env : Env) (cert_data : Bytes)
    (options : ParseCertificateOptions)
    (chain : List ParsedCertificate) (errors : Option (List CertErrorId)) :
    Bool × List ParsedCertificate × List CertErrorId :=
  match ParsedCertificate.Create env cert_data options errors with
  | (none, errs) => (false, chain, errs)
  | (some cert, errs) => (true, chain ++ [cert], errs)

/-- The OID constant each dispatch block looks up. -/
def oidOf : ExtKind → Bytes
  | .basicConstraints => kBasicConstraintsOid
  | .keyUsage => kKeyUsageOid
  | .extendedKeyUsage => kExtKeyUsageOid
  | .subjectAltName => kSubjectAltNameOid
  | .nameConstraints => kNameConstraintsOid
  | .authorityInfoAccess => kAuthorityInfoAccessOid
  | .certificatePolicies => kCertificatePoliciesOid
  | .policyConstraints => kPolicyConstraintsOid
  | .policyMappings => kPolicyMappingsOid
  | .inhibitAnyPolicy => kInhibitAnyPolicyOid
  | .subjectKeyIdentifier => kSubjectKeyIdentifierOid
  | .authorityKeyIdentifier => kAuthorityKeyIdentifierOid

/-- The extension-specific error identifier each dispatch block records when
its sub-parser fails. -/
def errorOf : ExtKind → CertErrorId
  | .basicConstraints => .kFailedParsingBasicConstraints
  | .keyUsage => .kFailedParsingKeyUsage
  | .extendedKeyUsage => .kFailedParsingEku
  | .subjectAltName => .kFailedParsingSubjectAltName
  | .nameConstraints => .kFailedParsingNameConstraints
  | .authorityInfoAccess => .kFailedParsingAia
  | .certificatePolicies => .kFailedParsingPolicies
  | .policyConstraints => .kFailedParsingPolicyConstraints
  | .policyMappings => .kFailedParsingPolicyMappings
  | .inhibitAnyPolicy => .kFailedParsingInhibitAnyPolicy
  | .subjectKeyIdentifier => .kFailedParsingSubjectKeyIdentifier
  | .authorityKeyIdentifier => .kFailedParsingAuthorityKeyIdentifier

/-- Whether the external sub-parser of a recognized extension type succeeds on
a given entry (the name constraints decoder also receives the criticality
flag, mirroring its call site). -/
def parserOkB (env : Env) (k : ExtKind) (e : ParsedExtension) : Bool :=
  match k with
  | .basicConstraints => (env.parseBasicConstraints e.value).isSome
  | .keyUsage => (env.parseKeyUsage e.value).isSome
  | .extendedKeyUsage => (env.parseEKUExtension e.value).isSome
  | .subjectAltName => (env.generalNamesCreate e.value).isSome
  | .nameConstraints => (env.nameConstraintsCreate e.value e.critical).isSome
  | .authorityInfoAccess => (env.parseAuthorityInfoAccessURIs e.value).isSome
  | .certificatePolicies => (env.parseCertificatePoliciesExtensionOids e.value false).isSome
  | .policyConstraints => (env.parsePolicyConstraints e.value).isSome
  | .policyMappings => (env.parsePolicyMappings e.value).isSome
  | .inhibitAnyPolicy => (env.parseInhibitAnyPolicy e.value).isSome
  | .subjectKeyIdentifier => (env.parseSubjectKeyIdentifier e.value).isSome
  | .authorityKeyIdentifier => (env.parseAuthorityKeyIdentifier e.value).isSome

/-- A recognized extension type is malformed in a given table when it is
present and its sub-parser fails on its value. -/
def stepMalformedB (env : Env) (table : List ParsedExtension) (k : ExtKind) : Bool :=
  match lookupExt table (oidOf k) with
  | none => false
  | some e => !(parserOkB env k e)

/-- The RFC 5280 4.1.2.6 check at the subjectAltName block does not fire:
either subjectAltName is absent, or the subject value is nonempty, or the
extension is critical. -/
def sanNoTripB (subject_value : Bytes) (table : List ParsedExtension) : Bool :=
  match lookupExt table kSubjectAltNameOid with
  | none => true
  | some e => if subject_value = [] then e.critical else true

/-- A dispatch block runs to completion: the extension is absent, or its
sub-parser succeeds and (for subjectAltName) the empty-subject criticality
check passes. -/
def stepCleanB (env : Env) (subject_value : Bytes) (table : List ParsedExtension)
    (k : ExtKind) : Bool :=
  match lookupExt table (oidOf k) with
  | none => true
  | some e =>
    parserOkB env k e &&
      (if k = .subjectAltName ∧ subject_value = [] then e.critical else true)

/-- The dispatch blocks that run before the subjectAltName block. -/
def sanPrefix : List ExtKind := [.basicConstraints, .keyUsage, .extendedKeyUsage]

/-- The presence indicators of the twelve recognized extensions, in dispatch
order: the eight explicit boolean flags plus the four optionals whose presence
marks the extension. -/
def presenceFlags (pc : ParsedCertificate) : List Bool :=
  [pc.has_basic_constraints, pc.has_key_usage, pc.has_extended_key_usage,
   pc.subject_alt_names.isSome, pc.name_constraints.isSome,
   pc.has_authority_info_access, pc.has_policy_oids, pc.has_policy_constraints,
   pc.has_policy_mappings, pc.has_inhibit_any_policy,
   pc.subject_key_identifier.isSome, pc.authority_key_identifier.isSome]

/-- The straight-line stages before the extension dispatch all succeed, with
the given intermediate values: envelope split, TBS decode, signature
algorithm decode, subject sequence read and normalization, issuer sequence
read and normalization (source lines 95-134). -/
structure PipelineOk (env : Env) (backing_data : Bytes) (options : ParseCertificateOptions)
    (tbs_certificate_tlv signature_algorithm_tlv signature_value : Bytes)
    (tbs : ParsedTbsCertificate) (signature_algorithm : SignatureAlgorithm)
    (subject_value normalized_subject issuer_value normalized_issuer : Bytes) : Prop where
  envelope_ok : env.parseCertificate backing_data =
    some (tbs_certificate_tlv, signature_algorithm_tlv, signature_value)
  tbs_ok : env.parseTbsCertificate tbs_certificate_tlv options = some tbs
  sigalg_ok : env.parseSignatureAlgorithm signature_algorithm_tlv = some signature_algorithm
  subject_seq_ok : GetSequenceValue env tbs.subject_tlv = some subject_value
  subject_norm_ok : env.normalizeName subject_value = some normalized_subject
  issuer_seq_ok : GetSequenceValue env tbs.issuer_tlv = some issuer_value
  issuer_norm_ok : env.normalizeName issuer_value = some normalized_issuer

/-- A family of fully-determined collaborator environments for concrete test
inputs: the whole buffer is taken as the TBS TLV, the TBS record and the
decoded extension records are fixed, a sequence read returns the whole region
with nothing left over, normalization is the identity, and every sub-parser
succeeds with a trivial value. -/
def mkTestEnv (tbs : ParsedTbsCertificate) (exts : List ParsedExtension) : Env where
  parseCertificate := fun b => some (b, b, b)
  parseTbsCertificate := fun _ _ => some tbs
  parseSignatureAlgorithm := fun _ => some 0
  readSequenceTLV := fun b => some (b, [])
  normalizeName := fun n => some n
  decodeExtensionsRegion := fun _ => some exts
  parseBasicConstraints := fun _ => some 0
  parseKeyUsage := fun _ => some 0
  parseEKUExtension := fun _ => some []
  generalNamesCreate := fun _ => some 0
  nameConstraintsCreate := fun _ _ => some 0
  parseAuthorityInfoAccessURIs := fun _ => some ([], [])
  parseCertificatePoliciesExtensionOids := fun _ _ => some []
  parsePolicyConstraints := fun _ => some 0
  parsePolicyMappings := fun _ => some 0
  parseInhibitAnyPolicy := fun _ => some 0
  parseSubjectKeyIdentifier := fun _ => some []
  parseAuthorityKeyIdentifier := fun _ => some 0

/-- A TBS record with a nonempty subject and no extensions TLV. -/
def tbsNoExts : ParsedTbsCertificate :=
  { subject_tlv := [5], issuer_tlv := [6], extensions_tlv := none }

/-- A TBS record with an empty subject value and an extensions TLV. -/
def tbsEmptySubject : ParsedTbsCertificate :=
  { subject_tlv := [], issuer_tlv := [6], extensions_tlv := some [48] }

/-- A TBS record with a nonempty subject value and an extensions TLV. -/
def tbsWithExts : ParsedTbsCertificate :=
  { subject_tlv := [5], issuer_tlv := [6], extensions_tlv := some [48] }

/-- A non-critical subjectAltName extension record. -/
def sanNonCritical : ParsedExtension :=
  { oid := kSubjectAltNameOid, critical := false, value := [7] }

/-- A critical subjectAltName extension record. -/
def sanCritical : ParsedExtension :=
  { oid := kSubjectAltNameOid, critical := true, value := [7] }

/-- A basic constraints extension record. -/
def bcExt : ParsedExtension :=
  { oid := kBasicConstraintsOid, critical := true, value := [8] }

/-- A name constraints extension record. -/
def ncExt : ParsedExtension :=
  { oid := kNameConstraintsOid, critical := false, value := [9] }

/-- A policy mappings extension record. -/
def pmExt : ParsedExtension :=
  { oid := kPolicyMappingsOid, critical := false, value := [10] }

/-- The certificate object produced by the successful no-extensions test
parse. -/
def pcNoExts : ParsedCertificate :=
  assembledPC [1] [1] [1] [1] tbsNoExts 0 [5] [6] []

/-- The dispatch blocks that follow the subjectAltName block, in order. -/
def afterSan : List ExtKind :=
  [.nameConstraints, .authorityInfoAccess, .certificatePolicies,
   .policyConstraints, .policyMappings, .inhibitAnyPolicy,
   .subjectKeyIdentifier, .authorityKeyIdentifier]

/-- The dispatch blocks that follow the basic constraints block, in order. -/
def afterBasicConstraints : List ExtKind :=
  [.keyUsage, .extendedKeyUsage, .subjectAltName, .nameConstraints,
   .authorityInfoAccess, .certificatePolicies, .policyConstraints,
   .policyMappings, .inhibitAnyPolicy, .subjectKeyIdentifier,
   .authorityKeyIdentifier]

/-- The dispatch blocks that follow the name constraints block, in order. -/
def afterNameConstraints : List ExtKind :=
  [.authorityInfoAccess, .certificatePolicies, .policyConstraints,
   .policyMappings, .inhibitAnyPolicy, .subjectKeyIdentifier,
   .authorityKeyIdentifier]

/-- A second basic constraints record with the same identifier bytes but a
different value and criticality. -/
def bcExt2 : ParsedExtension :=
  { oid := kBasicConstraintsOid, critical := false, value := [11] }

/-- Test environment: nonempty subject, no extensions TLV. -/
def envNoExts : Env := mkTestEnv tbsNoExts []

/-- Test environment: empty subject, extensions region without subjectAltName. -/
def envEmptySubjectNoSan : Env := mkTestEnv tbsEmptySubject []

/-- Test environment: empty subject, non-critical subjectAltName. -/
def envEmptySubjectSanNC : Env := mkTestEnv tbsEmptySubject [sanNonCritical]

/-- Test environment: empty subject, critical subjectAltName. -/
def envEmptySubjectSanCrit : Env := mkTestEnv tbsEmptySubject [sanCritical]

/-- Test environment: extensions region decoding to two records with the same
identifier bytes. -/
def envDupBC : Env := mkTestEnv tbsWithExts [bcExt, bcExt2]

/-- Test environment: basic constraints present but its sub-parser fails. -/
def envBadBC : Env :=
  { mkTestEnv tbsWithExts [bcExt] with parseBasicConstraints := fun _ => none }

/-- Test environment: basic constraints present and well-formed. -/
def envGoodBC : Env := mkTestEnv tbsWithExts [bcExt]

/-- The certificate object produced by the successful parse under
`envGoodBC`. -/
def pcGoodBC : ParsedCertificate :=
  { assembledPC [1] [1] [1] [1] tbsWithExts 0 [5] [6] [bcExt] with
      has_basic_constraints := true }

/-- Extension table with a non-critical subjectAltName followed by name
constraints and policy mappings records. -/
def tableC10 : List ParsedExtension := [sanNonCritical, ncExt, pmExt]

/-- Test environment: empty subject, valid non-critical subjectAltName, and
two later extensions whose sub-parsers fail. -/
def envC10cex : Env :=
  { mkTestEnv tbsEmptySubject tableC10 with
      nameConstraintsCreate := fun _ _ => none
      parsePolicyMappings := fun _ => none }

/-- Extension table with name constraints and policy mappings records. -/
def tableC10w : List ParsedExtension := [ncExt, pmExt]

/-- Test environment: nonempty subject and two extensions whose sub-parsers
fail, name constraints being the earlier one in dispatch order. -/
def envC10w : Env :=
  { mkTestEnv tbsWithExts tableC10w with
      nameConstraintsCreate := fun _ _ => none
      parsePolicyMappings := fun _ => none }

theorem lookupExt_eq_none_iff (t : List ParsedExtension) (oid : Bytes) :
    lookupExt t oid = none ↔ ∀ x ∈ t, x.oid ≠ oid := by
  simp [lookupExt, List.find?_eq_none]

theorem lookupExt_mem_of_nodup (t : List ParsedExtension) (e : ParsedExtension)
    (hnd : (t.map (fun x => x.oid)).Nodup) (hmem : e ∈ t) :
    lookupExt t e.oid = some e := by
  induction t with
  | nil => cases hmem
  | cons a rest ih =>
    rcases List.mem_cons.mp hmem with rfl | hmem
    · simp [lookupExt]
    · rw [List.map_cons, List.nodup_cons] at hnd
      rcases hnd with ⟨hnotin, hnd2⟩
      have hne : (a.oid == e.oid) = false := by
        rw [beq_eq_false_iff_ne]
        intro heq
        exact hnotin (by exact List.mem_map.mpr ⟨e, hmem, heq.symm⟩)
      simpa [lookupExt, List.find?_cons, hne] using ih hnd2 hmem

theorem insertExtensions_ok_eq (rest : List ParsedExtension) :
    ∀ acc t, insertExtensions acc rest = .ok t → t = acc ++ rest := by
  induction rest with
  | nil =>
    intro acc t h
    simp only [insertExtensions] at h
    cases h
    simp
  | cons e rest ih =>
    intro acc t h
    cases hl : lookupExt acc e.oid with
    | some x => simp [insertExtensions, hl] at h
    | none =>
      simp only [insertExtensions, hl] at h
      rw [ih (acc ++ [e]) t h]
      simp

theorem insertExtensions_ok_nodup (rest : List ParsedExtension) :
    ∀ acc t, (acc.map (fun x => x.oid)).Nodup → insertExtensions acc rest = .ok t →
      (t.map (fun x => x.oid)).Nodup := by
  induction rest with
  | nil =>
    intro acc t hnd h
    simp only [insertExtensions] at h
    cases h
    exact hnd
  | cons e rest ih =>
    intro acc t hnd h
    cases hl : lookupExt acc e.oid with
    | some x => simp [insertExtensions, hl] at h
    | none =>
      simp only [insertExtensions, hl] at h
      apply ih (acc ++ [e]) t ?_ h
      have hnotin : e.oid ∉ acc.map (fun x => x.oid) := by
        intro hin
        rcases List.mem_map.mp hin with ⟨x, hx, hxe⟩
        exact (lookupExt_eq_none_iff acc e.oid).mp hl x hx hxe
      rw [List.map_append, List.map_singleton, List.nodup_middle]
      exact List.nodup_cons.mpr ⟨by simpa using hnotin, by simpa using hnd⟩

theorem insertExtensions_dup (rest : List ParsedExtension) :
    ∀ acc, (acc.map (fun x => x.oid)).Nodup →
      ¬ ((acc ++ rest).map (fun x => x.oid)).Nodup →
      insertExtensions acc rest = .error .DuplicateExtension := by
  induction rest with
  | nil =>
    intro acc hnd hdup
    exact absurd (by simpa using hnd) hdup
  | cons e rest ih =>
    intro acc hnd hdup
    cases hl : lookupExt acc e.oid with
    | some x => simp [insertExtensions, hl]
    | none =>
      simp only [insertExtensions, hl]
      have hnotin : e.oid ∉ acc.map (fun x => x.oid) := by
        intro hin
        rcases List.mem_map.mp hin with ⟨x, hx, hxe⟩
        exact (lookupExt_eq_none_iff acc e.oid).mp hl x hx hxe
      apply ih (acc ++ [e])
      · rw [List.map_append, List.map_singleton, List.nodup_middle]
        exact List.nodup_cons.mpr ⟨by simpa using hnotin, by simpa using hnd⟩
      · intro hnd2
        apply hdup
        have : (acc ++ [e]) ++ rest = acc ++ e :: rest := by simp
        rw [← this]
        exact hnd2

theorem buildExtensionTable_ok_eq (raw t : List ParsedExtension)
    (h : buildExtensionTable raw = .ok t) : t = raw :=
  insertExtensions_ok_eq raw [] t h

theorem buildExtensionTable_ok_nodup (raw t : List ParsedExtension)
    (h : buildExtensionTable raw = .ok t) : (t.map (fun x => x.oid)).Nodup :=
  insertExtensions_ok_nodup raw [] t (by simp) h

theorem buildExtensionTable_dup (raw : List ParsedExtension)
    (hdup : ¬ (raw.map (fun x => x.oid)).Nodup) :
    buildExtensionTable raw = .error .DuplicateExtension :=
  insertExtensions_dup raw [] (by simp) (by simpa using hdup)

theorem not_nodup_oid_of_pair (raw : List ParsedExtension) (i j : Nat)
    (hi : i < raw.length) (hj : j < raw.length) (hne : i ≠ j)
    (heq : (raw.get ⟨i, hi⟩).oid = (raw.get ⟨j, hj⟩).oid) :
    ¬ (raw.map (fun x => x.oid)).Nodup := by
  intro hnd
  rw [List.nodup_iff_injective_get] at hnd
  have hi2 : i < (raw.map (fun x => x.oid)).length := by simpa using hi
  have hj2 : j < (raw.map (fun x => x.oid)).length := by simpa using hj
  have hget : (raw.map (fun x => x.oid)).get ⟨i, hi2⟩ =
      (raw.map (fun x => x.oid)).get ⟨j, hj2⟩ := by
    simpa [List.get_eq_getElem, List.getElem_map] using heq
  have := hnd hget
  exact hne (by simpa using congrArg Fin.val this)

theorem runStep_ok_preserves (env : Env) (sv : Bytes) (k : ExtKind)
    (pc pc2 : ParsedCertificate) (h : runStep env sv k pc = .ok pc2) :
    pc2.extensions = pc.extensions ∧ pc2.tbs = pc.tbs := by
  cases k <;>
    simp only [runStep, basicConstraintsStep, keyUsageStep, extendedKeyUsageStep,
      subjectAltNameStep, nameConstraintsStep, authorityInfoAccessStep,
      certificatePoliciesStep, policyConstraintsStep, policyMappingsStep,
      inhibitAnyPolicyStep, subjectKeyIdentifierStep, authorityKeyIdentifierStep] at h <;>
    (repeat' split at h) <;>
    simp_all <;>
    (try rw [← h]) <;>
    simp

theorem runStep_clean (env : Env) (sv : Bytes) (k : ExtKind)
    (table : List ParsedExtension) (rtlv : Bytes) (pc : ParsedCertificate)
    (hpcext : pc.extensions = table) (hext : pc.tbs.extensions_tlv = some rtlv)
    (hc : stepCleanB env sv table k = true) :
    ∃ pc2, runStep env sv k pc = .ok pc2 := by
  cases k <;>
    simp only [stepCleanB, oidOf, parserOkB] at hc <;>
    simp only [runStep, basicConstraintsStep, keyUsageStep, extendedKeyUsageStep,
      subjectAltNameStep, nameConstraintsStep, authorityInfoAccessStep,
      certificatePoliciesStep, policyConstraintsStep, policyMappingsStep,
      inhibitAnyPolicyStep, subjectKeyIdentifierStep, authorityKeyIdentifierStep,
      ParsedCertificate.GetExtension, hext, hpcext]
  case basicConstraints =>
    cases hl : lookupExt table kBasicConstraintsOid with
    | none => exact ⟨_, rfl⟩
    | some e =>
      rw [hl] at hc
      simp at hc
      obtain ⟨v, hv⟩ := Option.isSome_iff_exists.mp hc
      simp [hv]
  case keyUsage =>
    cases hl : lookupExt table kKeyUsageOid with
    | none => exact ⟨_, rfl⟩
    | some e =>
      rw [hl] at hc
      simp at hc
      obtain ⟨v, hv⟩ := Option.isSome_iff_exists.mp hc
      simp [hv]
  case extendedKeyUsage =>
    cases hl : lookupExt table kExtKeyUsageOid with
    | none => exact ⟨_, rfl⟩
    | some e =>
      rw [hl] at hc
      simp at hc
      obtain ⟨v, hv⟩ := Option.isSome_iff_exists.mp hc
      simp [hv]
  case subjectAltName =>
    cases hl : lookupExt table kSubjectAltNameOid with
    | none => exact ⟨_, rfl⟩
    | some e =>
      rw [hl] at hc
      by_cases hsv : sv = []
      · simp [hsv] at hc
        obtain ⟨hok, hcrit⟩ := hc
        obtain ⟨v, hv⟩ := Option.isSome_iff_exists.mp hok
        simp [hv, hsv, hcrit]
      · simp [hsv] at hc
        obtain ⟨v, hv⟩ := Option.isSome_iff_exists.mp hc
        have hlen : sv.length ≠ 0 := by simpa [List.length_eq_zero] using hsv
        simp [hv, hlen]
  case nameConstraints =>
    cases hl : lookupExt table kNameConstraintsOid with
    | none => exact ⟨_, rfl⟩
    | some e =>
      rw [hl] at hc
      simp at hc
      obtain ⟨v, hv⟩ := Option.isSome_iff_exists.mp hc
      simp [hv]
  case authorityInfoAccess =>
    cases hl : lookupExt table kAuthorityInfoAccessOid with
    | none => exact ⟨_, rfl⟩
    | some e =>
      rw [hl] at hc
      simp at hc
      obtain ⟨v, hv⟩ := Option.isSome_iff_exists.mp hc
      simp [hv]
  case certificatePolicies =>
    cases hl : lookupExt table kCertificatePoliciesOid with
    | none => exact ⟨_, rfl⟩
    | some e =>
      rw [hl] at hc
      simp at hc
      obtain ⟨v, hv⟩ := Option.isSome_iff_exists.mp hc
      simp [hv]
  case policyConstraints =>
    cases hl : lookupExt table kPolicyConstraintsOid with
    | none => exact ⟨_, rfl⟩
    | some e =>
      rw [hl] at hc
      simp at hc
      obtain ⟨v, hv⟩ := Option.isSome_iff_exists.mp hc
      simp [hv]
  case policyMappings =>
    cases hl : lookupExt table kPolicyMappingsOid with
    | none => exact ⟨_, rfl⟩
    | some e =>
      rw [hl] at hc
      simp at hc
      obtain ⟨v, hv⟩ := Option.isSome_iff_exists.mp hc
      simp [hv]
  case inhibitAnyPolicy =>
    cases hl : lookupExt table kInhibitAnyPolicyOid with
    | none => exact ⟨_, rfl⟩
    | some e =>
      rw [hl] at hc
      simp at hc
      obtain ⟨v, hv⟩ := Option.isSome_iff_exists.mp hc
      simp [hv]
  case subjectKeyIdentifier =>
    cases hl : lookupExt table kSubjectKeyIdentifierOid with
    | none => exact ⟨_, rfl⟩
    | some e =>
      rw [hl] at hc
      simp at hc
      obtain ⟨v, hv⟩ := Option.isSome_iff_exists.mp hc
      simp [hv]
  case authorityKeyIdentifier =>
    cases hl : lookupExt table kAuthorityKeyIdentifierOid with
    | none => exact ⟨_, rfl⟩
    | some e =>
      rw [hl] at hc
      simp at hc
      obtain ⟨v, hv⟩ := Option.isSome_iff_exists.mp hc
      simp [hv]

theorem runStep_malformed (env : Env) (sv : Bytes) (k : ExtKind)
    (table : List ParsedExtension) (rtlv : Bytes) (pc : ParsedCertificate)
    (e : ParsedExtension)
    (hpcext : pc.extensions = table) (hext : pc.tbs.extensions_tlv = some rtlv)
    (hl : lookupExt table (oidOf k) = some e)
    (hf : parserOkB env k e = false) :
    runStep env sv k pc = .error (errorOf k) := by
  cases k <;>
    simp only [oidOf] at hl <;>
    simp only [parserOkB] at hf <;>
    simp only [runStep, errorOf, basicConstraintsStep, keyUsageStep, extendedKeyUsageStep,
      subjectAltNameStep, nameConstraintsStep, authorityInfoAccessStep,
      certificatePoliciesStep, policyConstraintsStep, policyMappingsStep,
      inhibitAnyPolicyStep, subjectKeyIdentifierStep, authorityKeyIdentifierStep,
      ParsedCertificate.GetExtension, hext, hpcext, hl]
  case basicConstraints =>
    cases hp : env.parseBasicConstraints e.value with
    | none => simp [hp]
    | some v => rw [hp] at hf; simp at hf
  case keyUsage =>
    cases hp : env.parseKeyUsage e.value with
    | none => simp [hp]
    | some v => rw [hp] at hf; simp at hf
  case extendedKeyUsage =>
    cases hp : env.parseEKUExtension e.value with
    | none => simp [hp]
    | some v => rw [hp] at hf; simp at hf
  case subjectAltName =>
    cases hp : env.generalNamesCreate e.value with
    | none => simp [hp]
    | some v => rw [hp] at hf; simp at hf
  case nameConstraints =>
    cases hp : env.nameConstraintsCreate e.value e.critical with
    | none => simp [hp]
    | some v => rw [hp] at hf; simp at hf
  case authorityInfoAccess =>
    cases hp : env.parseAuthorityInfoAccessURIs e.value with
    | none => simp [hp]
    | some v => rw [hp] at hf; simp at hf
  case certificatePolicies =>
    cases hp : env.parseCertificatePoliciesExtensionOids e.value false with
    | none => simp [hp]
    | some v => rw [hp] at hf; simp at hf
  case policyConstraints =>
    cases hp : env.parsePolicyConstraints e.value with
    | none => simp [hp]
    | some v => rw [hp] at hf; simp at hf
  case policyMappings =>
    cases hp : env.parsePolicyMappings e.value with
    | none => simp [hp]
    | some v => rw [hp] at hf; simp at hf
  case inhibitAnyPolicy =>
    cases hp : env.parseInhibitAnyPolicy e.value with
    | none => simp [hp]
    | some v => rw [hp] at hf; simp at hf
  case subjectKeyIdentifier =>
    cases hp : env.parseSubjectKeyIdentifier e.value with
    | none => simp [hp]
    | some v => rw [hp] at hf; simp at hf
  case authorityKeyIdentifier =>
    cases hp : env.parseAuthorityKeyIdentifier e.value with
    | none => simp [hp]
    | some v => rw [hp] at hf; simp at hf

theorem runStep_sanTrip (env : Env) (sv : Bytes)
    (table : List ParsedExtension) (rtlv : Bytes) (pc : ParsedCertificate)
    (e : ParsedExtension) (gn : GeneralNames)
    (hpcext : pc.extensions = table) (hext : pc.tbs.extensions_tlv = some rtlv)
    (hl : lookupExt table kSubjectAltNameOid = some e)
    (hgn : env.generalNamesCreate e.value = some gn)
    (hsv : sv = []) (hcrit : e.critical = false) :
    runStep env sv .subjectAltName pc = .error .kSubjectAltNameNotCritical := by
  simp [runStep, subjectAltNameStep, ParsedCertificate.GetExtension, hext, hpcext,
    hl, hgn, hsv, hcrit]

theorem runSteps_append (env : Env) (sv : Bytes) (l1 l2 : List ExtKind) :
    ∀ pc, runSteps env sv (l1 ++ l2) pc =
      match runSteps env sv l1 pc with
      | .error e => .error e
      | .ok pc2 => runSteps env sv l2 pc2 := by
  induction l1 with
  | nil => intro pc; simp [runSteps]
  | cons k rest ih =>
    intro pc
    simp only [List.cons_append, runSteps]
    cases runStep env sv k pc with
    | error e => rfl
    | ok mid => exact ih mid

theorem runSteps_ok_preserves (env : Env) (sv : Bytes) (ks : List ExtKind) :
    ∀ pc pc2, runSteps env sv ks pc = .ok pc2 →
      pc2.extensions = pc.extensions ∧ pc2.tbs = pc.tbs := by
  induction ks with
  | nil =>
    intro pc pc2 h
    simp only [runSteps] at h
    cases h
    exact ⟨rfl, rfl⟩
  | cons k rest ih =>
    intro pc pc2 h
    simp only [runSteps] at h
    cases hs : runStep env sv k pc with
    | error e => rw [hs] at h; cases h
    | ok mid =>
      rw [hs] at h
      obtain ⟨h1, h2⟩ := runStep_ok_preserves env sv k pc mid hs
      obtain ⟨h3, h4⟩ := ih mid pc2 h
      exact ⟨h3.trans h1, h4.trans h2⟩

theorem runSteps_clean_ok (env : Env) (sv : Bytes) (table : List ParsedExtension)
    (rtlv : Bytes) (ks : List ExtKind) :
    ∀ pc, pc.extensions = table → pc.tbs.extensions_tlv = some rtlv →
      (∀ k ∈ ks, stepCleanB env sv table k = true) →
      ∃ pc2, runSteps env sv ks pc = .ok pc2 ∧ pc2.extensions = table ∧ pc2.tbs = pc.tbs := by
  induction ks with
  | nil =>
    intro pc hpcext hext _
    exact ⟨pc, rfl, hpcext, rfl⟩
  | cons k rest ih =>
    intro pc hpcext hext hclean
    obtain ⟨mid, hmid⟩ := runStep_clean env sv k table rtlv pc hpcext hext
      (hclean k (List.mem_cons_self k rest))
    obtain ⟨hp1, hp2⟩ := runStep_ok_preserves env sv k pc mid hmid
    obtain ⟨pc2, h2, h3, h4⟩ := ih mid (hp1.trans hpcext) (by rw [hp2]; exact hext)
      (fun k2 hk2 => hclean k2 (List.mem_cons_of_mem k hk2))
    refine ⟨pc2, ?_, h3, by rw [h4, hp2]⟩
    simp only [runSteps, hmid]
    exact h2

theorem runSteps_first_malformed (env : Env) (sv : Bytes) (table : List ParsedExtension)
    (rtlv : Bytes) (ks1 ks2 : List ExtKind) (k : ExtKind) (e : ParsedExtension)
    (pc : ParsedCertificate)
    (hpcext : pc.extensions = table) (hext : pc.tbs.extensions_tlv = some rtlv)
    (hclean : ∀ k2 ∈ ks1, stepCleanB env sv table k2 = true)
    (hl : lookupExt table (oidOf k) = some e)
    (hf : parserOkB env k e = false) :
    runSteps env sv (ks1 ++ k :: ks2) pc = .error (errorOf k) := by
  obtain ⟨mid, hmid, hmidext, hmidtbs⟩ :=
    runSteps_clean_ok env sv table rtlv ks1 pc hpcext hext hclean
  rw [runSteps_append, hmid]
  simp only [runSteps]
  rw [runStep_malformed env sv k table rtlv mid e hmidext (by rw [hmidtbs]; exact hext) hl hf]

theorem runSteps_san_trips (env : Env) (sv : Bytes) (table : List ParsedExtension)
    (rtlv : Bytes) (ks2 : List ExtKind) (e : ParsedExtension) (gn : GeneralNames)
    (pc : ParsedCertificate)
    (hpcext : pc.extensions = table) (hext : pc.tbs.extensions_tlv = some rtlv)
    (hclean : ∀ k2 ∈ sanPrefix, stepCleanB env sv table k2 = true)
    (hl : lookupExt table kSubjectAltNameOid = some e)
    (hgn : env.generalNamesCreate e.value = some gn)
    (hsv : sv = []) (hcrit : e.critical = false) :
    runSteps env sv (sanPrefix ++ .subjectAltName :: ks2) pc =
      .error .kSubjectAltNameNotCritical := by
  obtain ⟨mid, hmid, hmidext, hmidtbs⟩ :=
    runSteps_clean_ok env sv table rtlv sanPrefix pc hpcext hext hclean
  rw [runSteps_append, hmid]
  simp only [runSteps]
  rw [runStep_sanTrip env sv table rtlv mid e gn hmidext (by rw [hmidtbs]; exact hext)
    hl hgn hsv hcrit]

theorem createOrError_dispatch (env : Env) (b : Bytes) (opts : ParseCertificateOptions)
    (t s v : Bytes) (tbs : ParsedTbsCertificate) (alg : SignatureAlgorithm)
    (sv ns iv ni : Bytes) (rtlv : Bytes) (table : List ParsedExtension)
    (hp : PipelineOk env b opts t s v tbs alg sv ns iv ni)
    (hreg : tbs.extensions_tlv = some rtlv)
    (hpe : ParseExtensions env rtlv = .ok table) :
    createOrError env b opts =
      runSteps env sv dispatchOrder (assembledPC b t s v tbs alg ns ni table) := by
  simp only [createOrError, hp.envelope_ok, hp.tbs_ok, hp.sigalg_ok, hp.subject_seq_ok,
    hp.subject_norm_ok, hp.issuer_seq_ok, hp.issuer_norm_ok, hreg, hpe]

theorem createOrError_noExts (env : Env) (b : Bytes) (opts : ParseCertificateOptions)
    (t s v : Bytes) (tbs : ParsedTbsCertificate) (alg : SignatureAlgorithm)
    (sv ns iv ni : Bytes)
    (hp : PipelineOk env b opts t s v tbs alg sv ns iv ni)
    (hreg : tbs.extensions_tlv = none) :
    createOrError env b opts = .ok (assembledPC b t s v tbs alg ns ni []) := by
  simp only [createOrError, hp.envelope_ok, hp.tbs_ok, hp.sigalg_ok, hp.subject_seq_ok,
    hp.subject_norm_ok, hp.issuer_seq_ok, hp.issuer_norm_ok, hreg]

theorem createOrError_extFail (env : Env) (b : Bytes) (opts : ParseCertificateOptions)
    (t s v : Bytes) (tbs : ParsedTbsCertificate) (alg : SignatureAlgorithm)
    (sv ns iv ni : Bytes) (rtlv : Bytes) (z : ExtensionsParseError)
    (hp : PipelineOk env b opts t s v tbs alg sv ns iv ni)
    (hreg : tbs.extensions_tlv = some rtlv)
    (hpe : ParseExtensions env rtlv = .error z) :
    createOrError env b opts = .error .kFailedParsingExtensions := by
  simp only [createOrError, hp.envelope_ok, hp.tbs_ok, hp.sigalg_ok, hp.subject_seq_ok,
    hp.subject_norm_ok, hp.issuer_seq_ok, hp.issuer_norm_ok, hreg, hpe]

theorem Create_eq_of_ok (env : Env) (b : Bytes) (opts : ParseCertificateOptions)
    (errors : Option (List CertErrorId)) (pc : ParsedCertificate)
    (h : createOrError env b opts = .ok pc) :
    ParsedCertificate.Create env b opts errors = (some pc, errors.getD []) := by
  simp [ParsedCertificate.Create, h]

theorem Create_eq_of_error (env : Env) (b : Bytes) (opts : ParseCertificateOptions)
    (errors : Option (List CertErrorId)) (e : CertErrorId)
    (h : createOrError env b opts = .error e) :
    ParsedCertificate.Create env b opts errors = (none, errors.getD [] ++ [e]) := by
  simp [ParsedCertificate.Create, h]

theorem stepCleanB_of_not_malformed (env : Env) (sv : Bytes) (table : List ParsedExtension)
    (k : ExtKind) (h1 : stepMalformedB env table k = false) (h2 : sanNoTripB sv table = true) :
    stepCleanB env sv table k = true := by
  unfold stepCleanB
  cases hl : lookupExt table (oidOf k) with
  | none => rfl
  | some e =>
    unfold stepMalformedB at h1
    rw [hl] at h1
    simp at h1
    by_cases hk : k = ExtKind.subjectAltName
    · subst hk
      unfold sanNoTripB at h2
      simp only [oidOf] at hl
      rw [hl] at h2
      by_cases hsv : sv = []
      · simp [hsv] at h2
        simp [h1, hsv, h2]
      · simp [h1, hsv]
    · simp [h1, hk]

theorem stepCleanB_of_not_malformed_not_san (env : Env) (sv : Bytes)
    (table : List ParsedExtension) (k : ExtKind)
    (h1 : stepMalformedB env table k = false) (hk : k ≠ ExtKind.subjectAltName) :
    stepCleanB env sv table k = true := by
  unfold stepCleanB
  cases hl : lookupExt table (oidOf k) with
  | none => rfl
  | some e =>
    unfold stepMalformedB at h1
    rw [hl] at h1
    simp at h1
    simp [h1, hk]

/-- C5: for every input byte buffer and options, the success/failure outcome
of create and, on success, every field of the returned certificate are
identical whether an error-accumulation sink is supplied or omitted; the sink
only accumulates the appended diagnostics and never influences control flow or
the constructed object. -/
theorem c5_sink_never_influences_result (env : Env) (b : Bytes)
    (opts : ParseCertificateOptions) (errors : Option (List CertErrorId)) :
    (ParsedCertificate.Create env b opts errors).fst =
      (ParsedCertificate.Create env b opts none).fst ∧
    (ParsedCertificate.Create env b opts errors).snd =
      errors.getD [] ++ (ParsedCertificate.Create env b opts none).snd := by
  unfold ParsedCertificate.Create
  cases createOrError env b opts <;> simp

/-- C6: two calls to create on the same byte buffer and options (with any
error sinks) either both fail or both succeed, and on success the two objects
are field-for-field equal. -/
theorem c6_idempotent (env : Env) (b : Bytes) (opts : ParseCertificateOptions)
    (e1 e2 : Option (List CertErrorId)) :
    ((ParsedCertificate.Create env b opts e1).fst = none ↔
      (ParsedCertificate.Create env b opts e2).fst = none) ∧
    (∀ pc1 pc2, (ParsedCertificate.Create env b opts e1).fst = some pc1 →
      (ParsedCertificate.Create env b opts e2).fst = some pc2 → pc1 = pc2) := by
  unfold ParsedCertificate.Create
  cases createOrError env b opts with
  | ok pc => exact ⟨by simp, fun pc1 pc2 h1 h2 => by
      simp at h1 h2
      rw [← h1, ← h2]⟩
  | error e => exact ⟨by simp, fun pc1 pc2 h1 h2 => by simp at h1⟩

theorem c6_idempotent_witness :
    (ParsedCertificate.Create envNoExts [1] {} (some [])).fst = some pcNoExts ∧
    pcNoExts = pcNoExts :=
  ⟨rfl, (c6_idempotent envNoExts [1] {} (some []) none).2 pcNoExts pcNoExts rfl rfl⟩

/-- C8: append_to_chain parses and, on failure, returns false with the
caller-owned chain unchanged; on success it returns true with the new
certificate appended at the end, the sink in either case holding what create
left there. -/
theorem c8_create_and_add_to_vector (env : Env) (b : Bytes)
    (opts : ParseCertificateOptions) (chain : List ParsedCertificate)
    (errors : Option (List CertErrorId)) :
    ParsedCertificate.CreateAndAddToVector env b opts chain errors =
      ((ParsedCertificate.Create env b opts errors).fst.isSome,
       chain ++ (ParsedCertificate.Create env b opts errors).fst.toList,
       (ParsedCertificate.Create env b opts errors).snd) := by
  unfold ParsedCertificate.CreateAndAddToVector
  cases h : ParsedCertificate.Create env b opts errors with
  | mk fst snd => cases fst <;> simp

/-- C9: when GetExtension returns false because the extensions region is
present but the OID is not in the table, the out parameter is reset to a
default-constructed ParsedExtension; when it returns false because there is no
extensions region at all, the out parameter is left unmodified. -/
theorem c9_getExtension_out_param (pc : ParsedCertificate) (oid : Bytes)
    (out : ParsedExtension) :
    (pc.tbs.extensions_tlv = none → pc.GetExtension oid out = (false, out)) ∧
    (∀ rtlv, pc.tbs.extensions_tlv = some rtlv → lookupExt pc.extensions oid = none →
      pc.GetExtension oid out = (false, ({} : ParsedExtension))) := by
  constructor
  · intro h
    simp [ParsedCertificate.GetExtension, h]
  · intro rtlv h hl
    simp [ParsedCertificate.GetExtension, h, hl]

theorem c9_getExtension_out_param_witness :
    pcNoExts.GetExtension kBasicConstraintsOid bcExt = (false, bcExt) ∧
    (assembledPC [1] [1] [1] [1] tbsWithExts 0 [5] [6] []).GetExtension
      kBasicConstraintsOid bcExt = (false, ({} : ParsedExtension)) :=
  ⟨(c9_getExtension_out_param pcNoExts kBasicConstraintsOid bcExt).1 rfl,
   (c9_getExtension_out_param (assembledPC [1] [1] [1] [1] tbsWithExts 0 [5] [6] [])
      kBasicConstraintsOid bcExt).2 [48] rfl rfl⟩

/-- C4 (amended: twelve recognized extensions, not fourteen): for every input
whose envelope, TBS, signature algorithm and name normalization succeed and
whose TBS has no extensions region at all, create succeeds, every recognized
extension presence indicator of the returned object is false, and GetExtension
reports absence for every OID leaving the out parameter untouched. -/
theorem c4_no_extensions_region (env : Env) (b : Bytes) (opts : ParseCertificateOptions)
    (errs : List CertErrorId) (t s v : Bytes) (tbs : ParsedTbsCertificate)
    (alg : SignatureAlgorithm) (sv ns iv ni : Bytes)
    (hp : PipelineOk env b opts t s v tbs alg sv ns iv ni)
    (hreg : tbs.extensions_tlv = none) :
    (ParsedCertificate.Create env b opts (some errs)).fst.isSome = true ∧
    (ParsedCertificate.Create env b opts (some errs)).snd = errs ∧
    (∀ pc, (ParsedCertificate.Create env b opts (some errs)).fst = some pc →
      presenceFlags pc = List.replicate 12 false ∧
      ∀ oid out, pc.GetExtension oid out = (false, out)) := by
  have hco := createOrError_noExts env b opts t s v tbs alg sv ns iv ni hp hreg
  rw [Create_eq_of_ok env b opts (some errs) _ hco]
  refine ⟨rfl, rfl, ?_⟩
  intro pc hpc
  simp only [Option.some.injEq] at hpc
  rw [← hpc]
  constructor
  · rfl
  · intro oid out
    simp [ParsedCertificate.GetExtension, assembledPC, hreg]

theorem c4_no_extensions_region_witness :
    (ParsedCertificate.Create envNoExts [1] {} (some [])).fst.isSome = true ∧
    presenceFlags pcNoExts = List.replicate 12 false ∧
    pcNoExts.GetExtension kSubjectAltNameOid bcExt = (false, bcExt) := by
  have h := c4_no_extensions_region envNoExts [1] {} [] [1] [1] [1] tbsNoExts 0 [5] [5] [6] [6]
    ⟨rfl, rfl, rfl, rfl, rfl, rfl, rfl⟩ rfl
  exact ⟨h.1, (h.2.2 pcNoExts rfl).1, (h.2.2 pcNoExts rfl).2 kSubjectAltNameOid bcExt⟩

theorem c4_counterexample :
    (ParsedCertificate.Create envNoExts [1] {} (some [])).fst = some pcNoExts ∧
    (presenceFlags pcNoExts).length = 12 ∧ (presenceFlags pcNoExts).length ≠ 14 :=
  ⟨rfl, rfl, by decide⟩

/-- C2: whenever the decoded extensions region contains two records with
identical identifier bytes (any criticality or values), the table build fails
with DuplicateExtension, and create records the extensions failure and returns
no object. -/
theorem c2_duplicate_extension (env : Env) (b : Bytes) (opts : ParseCertificateOptions)
    (errs : List CertErrorId) (t s v : Bytes) (tbs : ParsedTbsCertificate)
    (alg : SignatureAlgorithm) (sv ns iv ni : Bytes) (rtlv : Bytes)
    (raw : List ParsedExtension) (i j : Nat) (hi : i < raw.length) (hj : j < raw.length)
    (hp : PipelineOk env b opts t s v tbs alg sv ns iv ni)
    (hreg : tbs.extensions_tlv = some rtlv)
    (hdec : env.decodeExtensionsRegion rtlv = some raw)
    (hne : i ≠ j) (heq : (raw.get ⟨i, hi⟩).oid = (raw.get ⟨j, hj⟩).oid) :
    ParseExtensions env rtlv = .error .DuplicateExtension ∧
    ParsedCertificate.Create env b opts (some errs) =
      (none, errs ++ [.kFailedParsingExtensions]) := by
  have hdup := not_nodup_oid_of_pair raw i j hi hj hne heq
  have htab := buildExtensionTable_dup raw hdup
  have hpe : ParseExtensions env rtlv = .error .DuplicateExtension := by
    simp [ParseExtensions, hdec, htab]
  exact ⟨hpe, Create_eq_of_error env b opts (some errs) _
    (createOrError_extFail env b opts t s v tbs alg sv ns iv ni rtlv _ hp hreg hpe)⟩

theorem c2_duplicate_extension_witness :
    ParseExtensions envDupBC [48] = .error .DuplicateExtension ∧
    ParsedCertificate.Create envDupBC [1] {} (some []) =
      (none, [.kFailedParsingExtensions]) :=
  c2_duplicate_extension envDupBC [1] {} [] [1] [1] [1] tbsWithExts 0 [5] [5] [6] [6] [48]
    [bcExt, bcExt2] 0 1 (by decide) (by decide) ⟨rfl, rfl, rfl, rfl, rfl, rfl, rfl⟩ rfl rfl
    (by decide) (by decide)

/-- C3 (amended: twelve recognized extension types, not fourteen): if a
recognized extension is present but its sub-parser fails, while every dispatch
block before it runs cleanly, create returns no object at all and the recorded
failure is the error kind specific to that extension type, regardless of the
extension's criticality flag. -/
theorem c3_subparser_failure (env : Env) (b : Bytes) (opts : ParseCertificateOptions)
    (errs : List CertErrorId) (t s v : Bytes) (tbs : ParsedTbsCertificate)
    (alg : SignatureAlgorithm) (sv ns iv ni : Bytes) (rtlv : Bytes)
    (table : List ParsedExtension) (ks1 : List ExtKind) (k : ExtKind) (ks2 : List ExtKind)
    (e : ParsedExtension)
    (hp : PipelineOk env b opts t s v tbs alg sv ns iv ni)
    (hreg : tbs.extensions_tlv = some rtlv)
    (hpe : ParseExtensions env rtlv = .ok table)
    (hsplit : dispatchOrder = ks1 ++ k :: ks2)
    (hclean : ∀ k2 ∈ ks1, stepCleanB env sv table k2 = true)
    (hl : lookupExt table (oidOf k) = some e)
    (hf : parserOkB env k e = false) :
    ParsedCertificate.Create env b opts (some errs) = (none, errs ++ [errorOf k]) := by
  have hco := createOrError_dispatch env b opts t s v tbs alg sv ns iv ni rtlv table hp hreg hpe
  rw [hsplit] at hco
  have hrun := runSteps_first_malformed env sv table rtlv ks1 ks2 k e
    (assembledPC b t s v tbs alg ns ni table) rfl (by simp [assembledPC, hreg]) hclean hl hf
  rw [hrun] at hco
  exact Create_eq_of_error env b opts (some errs) _ hco

theorem c3_subparser_failure_witness :
    ParsedCertificate.Create envBadBC [1] {} (some []) =
      (none, [.kFailedParsingBasicConstraints]) :=
  c3_subparser_failure envBadBC [1] {} [] [1] [1] [1] tbsWithExts 0 [5] [5] [6] [6] [48]
    [bcExt] [] .basicConstraints afterBasicConstraints bcExt
    ⟨rfl, rfl, rfl, rfl, rfl, rfl, rfl⟩ rfl rfl (by decide) (by decide) rfl rfl

theorem c3_counterexample :
    dispatchOrder.length = 12 ∧ dispatchOrder.length ≠ 14 := by decide

/-- C1 (amended): over inputs whose subject value decodes to the empty
sequence and which parse successfully up to the subjectAltName block: when the
subjectAltName extension is present, well-formed and not critical, create
fails recording the empty-subject criticality error; when it is present,
well-formed and critical and all dispatch blocks are clean, create succeeds;
when it is absent the check does not apply, so with all dispatch blocks clean
create succeeds rather than failing. -/
theorem c1_empty_subject_san :
    (∀ (env : Env) (b : Bytes) (opts : ParseCertificateOptions)
        (errs : List CertErrorId) (t s v : Bytes) (tbs : ParsedTbsCertificate)
        (alg : SignatureAlgorithm) (sv ns iv ni rtlv : Bytes)
        (table : List ParsedExtension) (e : ParsedExtension) (gn : GeneralNames),
      PipelineOk env b opts t s v tbs alg sv ns iv ni →
      tbs.extensions_tlv = some rtlv → ParseExtensions env rtlv = .ok table →
      sv = [] →
      lookupExt table kSubjectAltNameOid = some e →
      e.critical = false →
      env.generalNamesCreate e.value = some gn →
      (∀ k ∈ sanPrefix, stepCleanB env sv table k = true) →
      ParsedCertificate.Create env b opts (some errs) =
        (none, errs ++ [.kSubjectAltNameNotCritical])) ∧
    (∀ (env : Env) (b : Bytes) (opts : ParseCertificateOptions)
        (errs : List CertErrorId) (t s v : Bytes) (tbs : ParsedTbsCertificate)
        (alg : SignatureAlgorithm) (sv ns iv ni rtlv : Bytes)
        (table : List ParsedExtension) (e : ParsedExtension),
      PipelineOk env b opts t s v tbs alg sv ns iv ni →
      tbs.extensions_tlv = some rtlv → ParseExtensions env rtlv = .ok table →
      sv = [] →
      lookupExt table kSubjectAltNameOid = some e →
      e.critical = true →
      (∀ k ∈ dispatchOrder, stepCleanB env sv table k = true) →
      (ParsedCertificate.Create env b opts (some errs)).fst.isSome = true ∧
      (ParsedCertificate.Create env b opts (some errs)).snd = errs) ∧
    (∀ (env : Env) (b : Bytes) (opts : ParseCertificateOptions)
        (errs : List CertErrorId) (t s v : Bytes) (tbs : ParsedTbsCertificate)
        (alg : SignatureAlgorithm) (sv ns iv ni rtlv : Bytes)
        (table : List ParsedExtension),
      PipelineOk env b opts t s v tbs alg sv ns iv ni →
      tbs.extensions_tlv = some rtlv → ParseExtensions env rtlv = .ok table →
      sv = [] →
      lookupExt table kSubjectAltNameOid = none →
      (∀ k ∈ dispatchOrder, stepCleanB env sv table k = true) →
      (ParsedCertificate.Create env b opts (some errs)).fst.isSome = true ∧
      (ParsedCertificate.Create env b opts (some errs)).snd = errs) := by
  refine ⟨?_, ?_, ?_⟩
  · intro env b opts errs t s v tbs alg sv ns iv ni rtlv table e gn
      hp hreg hpe hsv hl hcrit hgn hclean
    have hco := createOrError_dispatch env b opts t s v tbs alg sv ns iv ni rtlv table hp hreg hpe
    have hds : dispatchOrder = sanPrefix ++ ExtKind.subjectAltName :: afterSan := by decide
    rw [hds] at hco
    have hrun := runSteps_san_trips env sv table rtlv afterSan e gn
      (assembledPC b t s v tbs alg ns ni table) rfl (by simp [assembledPC, hreg])
      hclean hl hgn hsv hcrit
    rw [hrun] at hco
    exact Create_eq_of_error env b opts (some errs) _ hco
  · intro env b opts errs t s v tbs alg sv ns iv ni rtlv table e
      hp hreg hpe hsv hl hcrit hclean
    have hco := createOrError_dispatch env b opts t s v tbs alg sv ns iv ni rtlv table hp hreg hpe
    obtain ⟨pc2, hrun, _, _⟩ := runSteps_clean_ok env sv table rtlv dispatchOrder
      (assembledPC b t s v tbs alg ns ni table) rfl (by simp [assembledPC, hreg]) hclean
    rw [hrun] at hco
    rw [Create_eq_of_ok env b opts (some errs) pc2 hco]
    exact ⟨rfl, rfl⟩
  · intro env b opts errs t s v tbs alg sv ns iv ni rtlv table
      hp hreg hpe hsv hl hclean
    have hco := createOrError_dispatch env b opts t s v tbs alg sv ns iv ni rtlv table hp hreg hpe
    obtain ⟨pc2, hrun, _, _⟩ := runSteps_clean_ok env sv table rtlv dispatchOrder
      (assembledPC b t s v tbs alg ns ni table) rfl (by simp [assembledPC, hreg]) hclean
    rw [hrun] at hco
    rw [Create_eq_of_ok env b opts (some errs) pc2 hco]
    exact ⟨rfl, rfl⟩

theorem c1_empty_subject_san_witness :
    ParsedCertificate.Create envEmptySubjectSanNC [1] {} (some []) =
      (none, [.kSubjectAltNameNotCritical]) ∧
    (ParsedCertificate.Create envEmptySubjectSanCrit [1] {} (some [])).fst.isSome = true ∧
    (ParsedCertificate.Create envEmptySubjectNoSan [1] {} (some [])).fst.isSome = true := by
  refine ⟨?_, ?_, ?_⟩
  · exact c1_empty_subject_san.1 envEmptySubjectSanNC [1] {} [] [1] [1] [1]
      tbsEmptySubject 0 [] [] [6] [6] [48] [sanNonCritical] sanNonCritical 0
      ⟨rfl, rfl, rfl, rfl, rfl, rfl, rfl⟩ rfl rfl rfl rfl rfl rfl (by decide)
  · exact (c1_empty_subject_san.2.1 envEmptySubjectSanCrit [1] {} [] [1] [1] [1]
      tbsEmptySubject 0 [] [] [6] [6] [48] [sanCritical] sanCritical
      ⟨rfl, rfl, rfl, rfl, rfl, rfl, rfl⟩ rfl rfl rfl rfl rfl (by decide)).1
  · exact (c1_empty_subject_san.2.2 envEmptySubjectNoSan [1] {} [] [1] [1] [1]
      tbsEmptySubject 0 [] [] [6] [6] [48] []
      ⟨rfl, rfl, rfl, rfl, rfl, rfl, rfl⟩ rfl rfl rfl rfl (by decide)).1

theorem c1_counterexample :
    (ParsedCertificate.Create envEmptySubjectNoSan [1] {} none).fst.isSome = true ∧
    GetSequenceValue envEmptySubjectNoSan tbsEmptySubject.subject_tlv = some [] ∧
    lookupExt [] kSubjectAltNameOid = none ∧
    (ParsedCertificate.Create envEmptySubjectNoSan [1] {} none).snd = [] := by
  decide

/-- C7: for every successfully constructed certificate, GetExtension on the
OID of any record that appeared in the decoded extensions region (recognized
or not) returns true together with exactly that record, that is the exact
value bytes and criticality flag from the input, for any incoming out
parameter. -/
theorem c7_lookup_returns_input (env : Env) (b : Bytes) (opts : ParseCertificateOptions)
    (errsOpt : Option (List CertErrorId)) (t s v : Bytes) (tbs : ParsedTbsCertificate)
    (alg : SignatureAlgorithm) (sv ns iv ni : Bytes) (rtlv : Bytes)
    (raw : List ParsedExtension) (pc : ParsedCertificate) (errsOut : List CertErrorId)
    (hp : PipelineOk env b opts t s v tbs alg sv ns iv ni)
    (hreg : tbs.extensions_tlv = some rtlv)
    (hdec : env.decodeExtensionsRegion rtlv = some raw)
    (hCr : ParsedCertificate.Create env b opts errsOpt = (some pc, errsOut)) :
    ∀ e ∈ raw, ∀ out, pc.GetExtension e.oid out = (true, e) := by
  have hco : createOrError env b opts = .ok pc := by
    unfold ParsedCertificate.Create at hCr
    cases hx : createOrError env b opts with
    | ok pc0 =>
      rw [hx] at hCr
      simp at hCr
      rw [hCr.1]
    | error e0 =>
      rw [hx] at hCr
      simp at hCr
  cases htab : buildExtensionTable raw with
  | error z =>
    have hpe : ParseExtensions env rtlv = .error z := by simp [ParseExtensions, hdec, htab]
    have hfail := createOrError_extFail env b opts t s v tbs alg sv ns iv ni rtlv z hp hreg hpe
    rw [hfail] at hco
    cases hco
  | ok table =>
    have hpe : ParseExtensions env rtlv = .ok table := by simp [ParseExtensions, hdec, htab]
    have hcd := createOrError_dispatch env b opts t s v tbs alg sv ns iv ni rtlv table hp hreg hpe
    rw [hcd] at hco
    obtain ⟨hext, htbs⟩ := runSteps_ok_preserves env sv dispatchOrder
      (assembledPC b t s v tbs alg ns ni table) pc hco
    simp only [assembledPC] at hext htbs
    have htbl : table = raw := buildExtensionTable_ok_eq raw table htab
    have hnd : (table.map (fun x => x.oid)).Nodup := buildExtensionTable_ok_nodup raw table htab
    intro e he out
    have hl : lookupExt table e.oid = some e :=
      lookupExt_mem_of_nodup table e hnd (by rw [htbl]; exact he)
    simp [ParsedCertificate.GetExtension, htbs, hreg, hext, hl]

theorem c7_lookup_returns_input_witness :
    ParsedCertificate.Create envGoodBC [1] {} none = (some pcGoodBC, []) ∧
    pcGoodBC.GetExtension kBasicConstraintsOid sanCritical = (true, bcExt) := by
  refine ⟨rfl, ?_⟩
  exact c7_lookup_returns_input envGoodBC [1] {} none [1] [1] [1] tbsWithExts 0 [5] [5] [6] [6]
    [48] [bcExt] pcGoodBC [] ⟨rfl, rfl, rfl, rfl, rfl, rfl, rfl⟩ rfl rfl rfl
    bcExt (by decide) sanCritical

/-- C10 (amended): the recognized extensions are dispatched in the fixed order
of dispatchOrder, so when two or more of them are malformed, the single
recorded failure kind is that of the earliest malformed extension in dispatch
order, provided the empty-subject criticality check at the subjectAltName
block does not fail first. -/
theorem c10_earliest_malformed (env : Env) (b : Bytes) (opts : ParseCertificateOptions)
    (errs : List CertErrorId) (t s v : Bytes) (tbs : ParsedTbsCertificate)
    (alg : SignatureAlgorithm) (sv ns iv ni : Bytes) (rtlv : Bytes)
    (table : List ParsedExtension) (ks1 : List ExtKind) (k : ExtKind) (ks2 : List ExtKind)
    (k2 : ExtKind) (e e2 : ParsedExtension)
    (hp : PipelineOk env b opts t s v tbs alg sv ns iv ni)
    (hreg : tbs.extensions_tlv = some rtlv)
    (hpe : ParseExtensions env rtlv = .ok table)
    (hsplit : dispatchOrder = ks1 ++ k :: ks2)
    (hmem2 : k2 ∈ ks2)
    (hl2 : lookupExt table (oidOf k2) = some e2)
    (hf2 : parserOkB env k2 e2 = false)
    (hclean : ∀ k3 ∈ ks1, stepMalformedB env table k3 = false)
    (hsan : ExtKind.subjectAltName ∈ ks1 → sanNoTripB sv table = true)
    (hl : lookupExt table (oidOf k) = some e)
    (hf : parserOkB env k e = false) :
    ParsedCertificate.Create env b opts (some errs) = (none, errs ++ [errorOf k]) := by
  have hco := createOrError_dispatch env b opts t s v tbs alg sv ns iv ni rtlv table hp hreg hpe
  rw [hsplit] at hco
  have hclean2 : ∀ k3 ∈ ks1, stepCleanB env sv table k3 = true := by
    intro k3 hk3
    by_cases hks : k3 = ExtKind.subjectAltName
    · subst hks
      exact stepCleanB_of_not_malformed env sv table _ (hclean _ hk3) (hsan hk3)
    · exact stepCleanB_of_not_malformed_not_san env sv table k3 (hclean k3 hk3) hks
  have hrun := runSteps_first_malformed env sv table rtlv ks1 ks2 k e
    (assembledPC b t s v tbs alg ns ni table) rfl (by simp [assembledPC, hreg]) hclean2 hl hf
  rw [hrun] at hco
  exact Create_eq_of_error env b opts (some errs) _ hco

theorem c10_earliest_malformed_witness :
    ParsedCertificate.Create envC10w [1] {} (some []) =
      (none, [.kFailedParsingNameConstraints]) :=
  c10_earliest_malformed envC10w [1] {} [] [1] [1] [1] tbsWithExts 0 [5] [5] [6] [6] [48]
    tableC10w [.basicConstraints, .keyUsage, .extendedKeyUsage, .subjectAltName]
    .nameConstraints afterNameConstraints .policyMappings ncExt pmExt
    ⟨rfl, rfl, rfl, rfl, rfl, rfl, rfl⟩ rfl rfl (by decide) (by decide) rfl rfl
    (by decide) (by decide) rfl rfl

theorem c10_counterexample :
    ParsedCertificate.Create envC10cex [1] {} none = (none, [.kSubjectAltNameNotCritical]) ∧
    envC10cex.decodeExtensionsRegion [48] = some tableC10 ∧
    stepMalformedB envC10cex tableC10 .nameConstraints = true ∧
    stepMalformedB envC10cex tableC10 .policyMappings = true ∧
    (∀ k ∈ [ExtKind.basicConstraints, .keyUsage, .extendedKeyUsage, .subjectAltName],
      stepMalformedB envC10cex tableC10 k = false) ∧
    CertErrorId.kSubjectAltNameNotCritical ≠ errorOf .nameConstraints := by
  decide
